import Mathlib

/-!
Verification of the Sisacao-8 signal/backtest/metrics pipeline.

Shallow embedding of the repository's algorithmic core:
* `functions/backtest_daily/backtest.py` — the deterministic daily backtest
  simulator and the metrics aggregator;
* `functions/eod_signals/signals.py` — the conditional-signal generator;
* `sisacao8/calendar.py` — the trading-day calendar helpers.

Modelling conventions:
* Python floats are modelled by `ℚ` (exact rational arithmetic); IEEE NaN
  has no rational counterpart, so a NaN cell coming out of pandas coercion is
  modelled as `Option.none` (missing value).
* Dates are modelled as integers (day ordinals); in the calendar section the
  convention is that day `0` is a Monday, so `d % 7 ∈ {5, 6}` marks weekends,
  matching Python's `date.weekday() >= 5`.
* Python's stable ascending `list.sort(key=...)` is modelled by a stable
  insertion sort (`stableSort`) on the same key order.
* `math.log10` is not algebraic over `ℚ`; it is threaded through as an
  explicit function parameter `lg : ℚ → ℚ`, and every theorem quantifies over
  it.
-/

namespace Sisacao

/-- A stable ascending insertion sort: `lt` is the strict key comparison, and
an element is inserted after every element it does not strictly precede, which
reproduces the stability of Python's `list.sort`. -/
def insertAfterEq {α : Type} (lt : α → α → Bool) (a : α) : List α → List α
  | [] => [a]
  | b :: l => if lt a b then a :: b :: l else b :: insertAfterEq lt a l

/-- Stable ascending sort by the strict comparison `lt` (model of Python's
stable `list.sort`). -/
def stableSort {α : Type} (lt : α → α → Bool) (l : List α) : List α :=
  l.foldl (fun acc a => insertAfterEq lt a acc) []

/-! ## Backtest simulator — `functions/backtest_daily/backtest.py` -/

/-- One ticker's OHLC bar for one session (`DailyBar` dataclass). -/
structure DailyBar where
  ticker : String
  date : ℤ
  openP : ℚ
  high : ℚ
  low : ℚ
  close : ℚ
  deriving DecidableEq, Repr

/-- The persisted-signal subset consumed by the simulator
(`SignalPayload` dataclass). -/
structure SignalPayload where
  dateRef : ℤ
  validFor : ℤ
  ticker : String
  side : String
  entry : ℚ
  target : ℚ
  stop : ℚ
  horizonDays : ℕ
  modelVersion : String
  deriving DecidableEq, Repr

/-- The simulated outcome of one signal (`BacktestTrade` dataclass). -/
structure BacktestTrade where
  dateRef : ℤ
  validFor : ℤ
  ticker : String
  side : String
  entry : ℚ
  target : ℚ
  stop : ℚ
  horizonDays : ℕ
  modelVersion : String
  entryHit : Bool
  entryFillDate : Option ℤ
  exitDate : Option ℤ
  exitReason : String
  exitPrice : Option ℚ
  returnPct : Option ℚ
  mfePct : Option ℚ
  maePct : Option ℚ
  deriving DecidableEq, Repr

/-- Model of `_entry_touched`: BUY fills when `bar.low ≤ entry`, SELL when
`bar.high ≥ entry`. -/
def entryTouched (side : String) (bar : DailyBar) (entry : ℚ) : Bool :=
  if side = "SELL" then decide (entry ≤ bar.high) else decide (bar.low ≤ entry)

/-- Model of `_update_excursions`: running maximum favorable / minimum adverse
excursion; skipped entirely when `entry ≤ 0`. -/
def updateExcursions (side : String) (entry dayHigh dayLow : ℚ)
    (mfe mae : Option ℚ) : Option ℚ × Option ℚ :=
  if entry ≤ 0 then (mfe, mae)
  else
    let favorable := if side = "SELL" then (entry - dayLow) / entry
                     else (dayHigh - entry) / entry
    let adverse := if side = "SELL" then (entry - dayHigh) / entry
                   else (dayLow - entry) / entry
    (some (match mfe with | none => favorable | some m => max m favorable),
     some (match mae with | none => adverse | some m => min m adverse))

/-- The local `hit_stop` condition of `_check_exit`. -/
def hitStop (side : String) (bar : DailyBar) (stop : ℚ) : Bool :=
  if side = "SELL" then decide (stop ≤ bar.high) else decide (bar.low ≤ stop)

/-- The local `hit_target` condition of `_check_exit`. -/
def hitTarget (side : String) (bar : DailyBar) (target : ℚ) : Bool :=
  if side = "SELL" then decide (bar.low ≤ target) else decide (target ≤ bar.high)

/-- Model of `_check_exit`: resolves a post-fill bar to `("STOP", stop)`,
`("TARGET", target)` or `(None, None)`; the redundant simultaneous-hit branch
of the source is kept verbatim. -/
def checkExit (side : String) (bar : DailyBar) (target stop : ℚ) :
    Option String × Option ℚ :=
  if hitStop side bar stop && hitTarget side bar target then (some "STOP", some stop)
  else if hitStop side bar stop then (some "STOP", some stop)
  else if hitTarget side bar target then (some "TARGET", some target)
  else (none, none)

/-- Model of `_compute_return`: signed return relative to the entry; `0` when
`entry == 0`. -/
def computeReturn (side : String) (entry exitPrice : ℚ) : ℚ :=
  if entry = 0 then 0
  else if side = "SELL" then (entry - exitPrice) / entry
  else (exitPrice - entry) / entry

/-- The mutable locals of `_simulate_signal`'s bar loop. -/
structure SimState where
  entryHit : Bool
  entryFillDate : Option ℤ
  exitDate : Option ℤ
  exitReason : String
  exitPrice : Option ℚ
  mfe : Option ℚ
  mae : Option ℚ
  lastBar : Option DailyBar
  deriving DecidableEq, Repr

/-- Initial loop state of `_simulate_signal` (before the `for bar in
ordered_days` loop). -/
def initSimState : SimState :=
  { entryHit := false, entryFillDate := none, exitDate := none,
    exitReason := "NO_FILL", exitPrice := none, mfe := none, mae := none,
    lastBar := none }

/-- The `for bar in ordered_days` loop of `_simulate_signal`; a successful
exit check sets the exit fields and breaks. -/
def simLoop (signal : SignalPayload) : List DailyBar → SimState → SimState
  | [], st => st
  | bar :: rest, st =>
    let st1 := { st with lastBar := some bar }
    let st2 :=
      if st1.entryHit = false then
        (if entryTouched signal.side bar signal.entry then
          { st1 with entryHit := true, entryFillDate := some bar.date }
        else st1)
      else st1
    if st2.entryHit = false then simLoop signal rest st2
    else
      let em := updateExcursions signal.side signal.entry bar.high bar.low
        st2.mfe st2.mae
      let st3 := { st2 with mfe := em.1, mae := em.2 }
      match checkExit signal.side bar signal.target signal.stop with
      | (some reason, price) =>
        { st3 with exitReason := reason, exitPrice := price,
                   exitDate := some bar.date }
      | (none, _) => simLoop signal rest st3

/-- The `ordered_days` selection of `_simulate_signal`: candles sorted by
date, restricted to `date ≥ valid_for`, truncated to the first
`horizon_days` bars. -/
def orderedDays (signal : SignalPayload) (candles : List DailyBar) :
    List DailyBar :=
  ((stableSort (fun a b => decide (a.date < b.date)) candles).filter
      (fun b => decide (signal.validFor ≤ b.date))).take signal.horizonDays

/-- Model of `_simulate_signal`: runs the bar loop and the post-loop fixups
(`EXPIRE`, `NO_DATA`, `return_pct`). -/
def simulateSignal (signal : SignalPayload) (candles : List DailyBar) :
    BacktestTrade :=
  let days := orderedDays signal candles
  let st := simLoop signal days initSimState
  let expire := st.entryHit && st.exitPrice.isNone
  let exitReason0 := if expire then "EXPIRE" else st.exitReason
  let exitPrice :=
    if expire then
      match st.lastBar with | some b => some b.close | none => st.exitPrice
    else st.exitPrice
  let exitDate :=
    if expire then
      match st.lastBar with | some b => some b.date | none => st.exitDate
    else st.exitDate
  let exitReason := if days = [] then "NO_DATA" else exitReason0
  let returnPct : Option ℚ :=
    match st.entryHit, exitPrice with
    | true, some p => some (computeReturn signal.side signal.entry p)
    | false, _ => some 0
    | true, none => some 0
  { dateRef := signal.dateRef, validFor := signal.validFor,
    ticker := signal.ticker, side := signal.side, entry := signal.entry,
    target := signal.target, stop := signal.stop,
    horizonDays := signal.horizonDays, modelVersion := signal.modelVersion,
    entryHit := st.entryHit, entryFillDate := st.entryFillDate,
    exitDate := exitDate, exitReason := exitReason, exitPrice := exitPrice,
    returnPct := returnPct, mfePct := st.mfe, maePct := st.mae }

/-- Model of `run_backtest`: one trade per signal, in order. -/
def runBacktest (signals : List SignalPayload)
    (candles : String → List DailyBar) : List BacktestTrade :=
  signals.map (fun s => simulateSignal s (candles s.ticker))

/-- Fixture: the spec's worked example — `BUY TEST3, entry below target,
stop below entry, validFor=day 3, horizon=3` (prices scaled ×10 to integer
values, which keeps all comparisons kernel-computable). -/
def exampleSignal : SignalPayload :=
  { dateRef := 2, validFor := 3, ticker := "TEST3", side := "BUY",
    entry := 100, target := 105, stop := 95, horizonDays := 3,
    modelVersion := "signals_v1" }

/-- Fixture: the spec's worked example candles (scaled ×10): a first bar that
fills the entry without exiting, then a bar whose high crosses the target. -/
def exampleCandles : List DailyBar :=
  [{ ticker := "TEST3", date := 3, openP := 100, high := 101,
     low := 98, close := 100 },
   { ticker := "TEST3", date := 4, openP := 100, high := 106,
     low := 99, close := 105 }]

/-! ## Signal generator — `functions/eod_signals/signals.py` -/

/-- One input bar row for the generator, after the pandas numeric coercion:
a cell that is absent or unparsable (NaN) is `none` (IEEE NaN itself has no
rational counterpart; no claim under verification depends on NaN-specific
float behaviour).  The column-level fallback `df.get("open", df["close"])`
applies only when no row at all carries an `open` field; the embedding models
inputs that carry the `open` column, with absent cells as `none`. -/
structure BarRow where
  ticker : String
  close : Option ℚ
  openP : Option ℚ
  high : Option ℚ
  low : Option ℚ
  volumeFinanceiro : Option ℚ
  volume : Option ℚ
  qtdNegociada : Option ℚ
  deriving DecidableEq, Repr

/-- Python's `a or b or ... or 0.0` over optional numeric cells: the first
value that is present and nonzero, else `0`. -/
def firstTruthy : List (Option ℚ) → ℚ
  | [] => 0
  | none :: rest => firstTruthy rest
  | some v :: rest => if v = 0 then firstTruthy rest else v

/-- The liquidity chain `row.get("volume_financeiro") or row.get("volume")
or row.get("qtd_negociada") or 0.0`. -/
def liquidityOf (r : BarRow) : ℚ :=
  firstTruthy [r.volumeFinanceiro, r.volume, r.qtdNegociada]

/-- Model of `_preferred_side`: `SELL` when the day closed above its open, else
`BUY`; `BUY` when the open is unavailable. -/
def preferredSide (closePrice : ℚ) (openPrice : Option ℚ) : String :=
  match openPrice with
  | none => "BUY"
  | some o => if o < closePrice then "SELL" else "BUY"

/-- Clamped win-rate / profit-factor pair stored by
`_prepare_metrics_lookup`. -/
structure MetricStats where
  winRate : ℚ
  profitFactor : ℚ
  deriving DecidableEq, Repr

/-- One row of the optional backtest-metrics snapshot consumed by the
generator (absent / NaN numeric cells are `none`). -/
structure MetricsInputRow where
  ticker : String
  side : String
  winRate : Option ℚ
  profitFactor : Option ℚ
  deriving DecidableEq, Repr

/-- Model of `_prepare_metrics_lookup`: normalizes keys, drops blank tickers and
unknown sides, clamps `win_rate` to `[0, 1]` and `profit_factor` to `≥ 0`.
The dict is modelled as an association list in insertion order; a later
insertion of the same key overrides an earlier one via `lookupStats`. -/
def prepareMetricsLookup (metrics : List MetricsInputRow) :
    List ((String × String) × MetricStats) :=
  metrics.foldl
    (fun acc row =>
      let ticker := row.ticker.trim.toUpper
      let side := row.side.trim.toUpper
      if ticker = "" ∨ ¬ (side = "BUY" ∨ side = "SELL") then acc
      else
        acc ++ [((ticker, side),
          { winRate := max 0 (min 1 ((row.winRate.getD 0)))
            profitFactor := max 0 (row.profitFactor.getD 0) })])
    []

/-- Dict lookup on the association list: the last binding of the key wins,
matching Python dict assignment. -/
def lookupStats (l : List ((String × String) × MetricStats))
    (key : String × String) : Option MetricStats :=
  (l.reverse.find? (fun p => decide (p.1 = key))).map (fun p => p.2)

/-- Model of `_normalize_liquidity`: log-scaled turnover clamped to `[0, 1]`;
`lg` stands for `math.log10`. -/
def normalizeLiquidity (lg : ℚ → ℚ) (value : ℚ) : ℚ :=
  if value ≤ 0 then 0
  else
    let logValue := lg value
    let minLog : ℚ := 4
    let maxLog : ℚ := 10
    let normalized := (logValue - minLog) / (maxLog - minLog)
    max 0 (min 1 normalized)

/-- Model of `_volatility_penalty`: up to `0.1` for a daily range of `12%` of the
close or more. -/
def volatilityPenalty (high low closePrice : ℚ) : ℚ :=
  if closePrice ≤ 0 then 0
  else
    let rangePct := max (high - low) 0 / closePrice
    min (rangePct / (12 / 100)) 1 * (1 / 10)

/-- Model of `_compute_candidate_score`: `0.6 ×` backtest component `+ 0.4 ×`
liquidity component, minus the volatility penalty, clamped to `[0, 1]`. -/
def computeCandidateScore (lg : ℚ → ℚ) (ticker side : String) (row : BarRow)
    (metricsLookup : List ((String × String) × MetricStats)) : ℚ :=
  let liquidity := liquidityOf row
  let liquidityScore := normalizeLiquidity lg liquidity
  let backtestScore :=
    match lookupStats metricsLookup (ticker, side) with
    | some stats =>
      (7 / 10) * stats.winRate + (3 / 10) * min 1 (stats.profitFactor / 3)
    | none => 1 / 2
  let high := firstTruthy [row.high, row.close]
  let low := firstTruthy [row.low, row.close]
  let closePrice := firstTruthy [row.close]
  let penalty := volatilityPenalty high low closePrice
  let rawScore := (6 / 10) * backtestScore + (4 / 10) * liquidityScore
  max 0 (min 1 (rawScore - penalty))

/-- The candidate dict built by `_build_candidate`. -/
structure Candidate where
  ticker : String
  side : String
  entry : ℚ
  target : ℚ
  stop : ℚ
  xRule : String
  score : ℚ
  priority : ℕ
  volume : ℚ
  close : ℚ
  yTargetPct : ℚ
  yStopPct : ℚ
  rankingKey : String
  horizonDays : ℤ
  deriving DecidableEq, Repr

/-- The `x_rule` f-string `close(D)*{multiplier:.4f}`; the `%.4f` float
rendering is modelled by the exact rational rendering (no claim depends on
the digits of this label). -/
def xRuleString (multiplier : ℚ) : String :=
  "close(D)*" ++ toString multiplier

/-- Model of `_build_candidate`: entry/target/stop levels derived from the close
price, plus the tie-break `priority`. -/
def buildCandidate (ticker side : String) (closePrice : ℚ)
    (xPct targetPct stopPct : ℚ) (preferred : String) (score : ℚ)
    (volume : ℚ) (rankingKey : String) (horizonDays : ℤ) : Candidate :=
  let multiplier := if side = "BUY" then 1 - xPct else 1 + xPct
  let entry := closePrice * multiplier
  let target := if side = "BUY" then entry * (1 + targetPct)
                else entry * (1 - targetPct)
  let stop := if side = "BUY" then entry * (1 - stopPct)
              else entry * (1 + stopPct)
  { ticker := ticker, side := side, entry := entry, target := target,
    stop := stop, xRule := xRuleString multiplier, score := score,
    priority := if side = preferred then 0 else 1, volume := volume,
    close := closePrice, yTargetPct := targetPct, yStopPct := stopPct,
    rankingKey := rankingKey, horizonDays := horizonDays }

/-- The generated signal (`ConditionalSignal` dataclass). -/
structure ConditionalSignal where
  ticker : String
  side : String
  entry : ℚ
  target : ℚ
  stop : ℚ
  rank : ℕ
  xRule : String
  yTargetPct : ℚ
  yStopPct : ℚ
  volume : ℚ
  close : ℚ
  score : ℚ
  rankingKey : String
  horizonDays : ℤ
  deriving DecidableEq, Repr

/-- The configuration surface of `generate_conditional_signals`. -/
structure GenConfig where
  topN : ℤ
  xPct : ℚ
  targetPct : ℚ
  stopPct : ℚ
  allowSell : Bool
  horizonDays : ℤ
  rankingKey : String
  deriving DecidableEq, Repr

/-- The normalization pipeline applied to the row set: uppercase then strip
tickers, drop blank tickers, drop rows whose close did not parse. -/
def normalizeRows (rows : List BarRow) : List BarRow :=
  ((rows.map (fun r => { r with ticker := r.ticker.toUpper.trim })).filter
      (fun r => decide (r.ticker ≠ ""))).filter (fun r => r.close.isSome)

/-- The candidate construction loop: for each normalized row, one candidate
per allowed side. -/
def buildCandidates (lg : ℚ → ℚ) (cfg : GenConfig) (df : List BarRow)
    (metricsLookup : List ((String × String) × MetricStats)) :
    List Candidate :=
  let sides : List String := if cfg.allowSell then ["BUY", "SELL"] else ["BUY"]
  df.flatMap (fun r =>
    let closePrice := r.close.getD 0
    let preferred := preferredSide closePrice r.openP
    let liquidityValue := liquidityOf r
    sides.map (fun side =>
      buildCandidate r.ticker side closePrice cfg.xPct cfg.targetPct
        cfg.stopPct preferred
        (computeCandidateScore lg r.ticker side r metricsLookup)
        liquidityValue cfg.rankingKey cfg.horizonDays))

/-- Strict comparison on the sort key `(-score, priority, ticker, side)`. -/
def candLT (a b : Candidate) : Bool :=
  if a.score ≠ b.score then decide (b.score < a.score)
  else if a.priority ≠ b.priority then decide (a.priority < b.priority)
  else if a.ticker ≠ b.ticker then decide (a.ticker < b.ticker)
  else decide (a.side < b.side)

/-- The `ConditionalSignal(...)` constructor call inside the selection
loop; the Python `float`/`str`/`int` coercions are identities here. -/
def mkSignal (c : Candidate) (rank : ℕ) : ConditionalSignal :=
  { ticker := c.ticker, side := c.side, entry := c.entry, target := c.target,
    stop := c.stop, rank := rank, xRule := c.xRule,
    yTargetPct := c.yTargetPct, yStopPct := c.yStopPct, volume := c.volume,
    close := c.close, score := c.score, rankingKey := c.rankingKey,
    horizonDays := c.horizonDays }

/-- The selection loop: walk the sorted candidates, skip tickers already
used, append with `rank = len(selected) + 1`, stop once `limit` signals are
selected. -/
def selectLoop (limit : ℕ) : List Candidate → List ConditionalSignal →
    List String → List ConditionalSignal
  | [], selected, _ => selected
  | c :: rest, selected, used =>
    if c.ticker ∈ used then selectLoop limit rest selected used
    else
      let selected1 := selected ++ [mkSignal c (selected.length + 1)]
      if limit ≤ selected1.length then selected1
      else selectLoop limit rest selected1 (c.ticker :: used)

/-- Model of `generate_conditional_signals`.  Raising `ValueError` is modelled by
`Except.error`; the `KeyError` guard for a wholly absent `ticker`/`close`
column is outside the embedded input domain, whose rows always carry the
columns (absent cells are `none`). -/
def generateConditionalSignals (lg : ℚ → ℚ) (cfg : GenConfig)
    (rows : List BarRow) (metrics : List MetricsInputRow) :
    Except String (List ConditionalSignal) :=
  let limit := min cfg.topN.toNat 5
  if limit = 0 then .ok []
  else if cfg.xPct < 0 then .error "x_pct deve ser nao negativo"
  else if cfg.targetPct ≤ 0 ∨ cfg.stopPct ≤ 0 then
    .error "target_pct e stop_pct devem ser positivos"
  else if cfg.horizonDays ≤ 0 then .error "horizon_days deve ser positivo"
  else if rows = [] then .ok []
  else
    let df := normalizeRows rows
    let metricsLookup := prepareMetricsLookup metrics
    let candidates := buildCandidates lg cfg df metricsLookup
    let sorted := stableSort candLT candidates
    .ok (selectLoop limit sorted [] [])

/-! ## Metrics aggregator — `compute_metrics` / `_compute_metrics_for_groups` -/

/-- One trade row inside a horizon group of `compute_metrics`, after the
pandas coercions: `returnPct` / `daysInTrade` are `none` when the cell is
NaN.  `daysInTrade` is the derived `exit_date − entry_fill_date + 1`. -/
structure TradeRow where
  ticker : String
  side : String
  entryHit : Bool
  returnPct : Option ℚ
  daysInTrade : Option ℚ
  deriving DecidableEq, Repr

/-- One aggregated output row of `_compute_metrics_for_groups`. -/
structure MetricRow where
  asOfDate : ℤ
  ticker : Option String
  side : Option String
  horizonDays : Option ℤ
  signals : ℕ
  fills : ℕ
  winRate : ℚ
  avgReturn : Option ℚ
  avgWin : Option ℚ
  avgLoss : Option ℚ
  profitFactor : Option ℚ
  avgDaysInTrade : Option ℚ
  deriving DecidableEq, Repr

/-- Model of `sorted(frame[col].unique())`: deduplicate, then sort ascending. -/
def sortedUnique (l : List String) : List String :=
  stableSort (fun a b => decide (a < b)) l.dedup

/-- The four combo classes enumerated by `_compute_metrics_for_groups`:
global, by side, by ticker, by ticker × side. -/
def combosOf (frame : List TradeRow) : List (Option String × Option String) :=
  let sides := sortedUnique (frame.map (fun r => r.side))
  let tickers := sortedUnique (frame.map (fun r => r.ticker))
  [((none : Option String), (none : Option String))]
    ++ sides.map (fun s => ((none : Option String), some s))
    ++ tickers.map (fun t => (some t, (none : Option String)))
    ++ tickers.flatMap (fun t => sides.map (fun s => (some t, some s)))

/-- The subset selection for one combo (`subset = subset[... == ticker]`,
then `subset[... == side]`). -/
def filterCombo (frame : List TradeRow) (ticker side : Option String) :
    List TradeRow :=
  let f1 := match ticker with
    | none => frame
    | some t => frame.filter (fun r => decide (r.ticker = t))
  match side with
  | none => f1
  | some s => f1.filter (fun r => decide (r.side = s))

/-- The `filled[filled["return_pct"] > 0]` membership test; a NaN return
compares false in pandas, hence `none ↦ false`. -/
def isWin (r : TradeRow) : Bool :=
  match r.returnPct with | some v => decide (0 < v) | none => false

/-- The `filled[filled["return_pct"] < 0]` membership test. -/
def isLoss (r : TradeRow) : Bool :=
  match r.returnPct with | some v => decide (v < 0) | none => false

/-- The filled subset (`subset[subset["entry_hit"]]`). -/
def filledOf (subset : List TradeRow) : List TradeRow :=
  subset.filter (fun r => r.entryHit)

/-- The winning filled trades of a combo subset. -/
def winsOf (subset : List TradeRow) : List TradeRow :=
  (filledOf subset).filter isWin

/-- The losing filled trades of a combo subset. -/
def lossesOf (subset : List TradeRow) : List TradeRow :=
  (filledOf subset).filter isLoss

/-- The present (non-NaN) returns of a trade list. -/
def returnsOf (l : List TradeRow) : List ℚ :=
  l.filterMap (fun r => r.returnPct)

/-- pandas `Series.mean()` over the present values (NaN cells are skipped;
the all-NaN mean, which pandas renders as NaN, falls outside the guarded
call sites below, which test emptiness first). -/
def ratMean (l : List ℚ) : ℚ := l.sum / (l.length : ℚ)

/-- The per-combo row computation of `_compute_metrics_for_groups` (the body
of the combo loop after the emptiness `continue`). -/
def metricsRow (subset : List TradeRow) (ticker side : Option String)
    (horizon : Option ℤ) (asOf : ℤ) : MetricRow :=
  let filled := filledOf subset
  let fills := filled.length
  let signalsCount := subset.length
  let wins := winsOf subset
  let losses := lossesOf subset
  let winRate : ℚ := if fills ≠ 0 then (wins.length : ℚ) / (fills : ℚ) else 0
  let avgReturn := if filled ≠ [] then some (ratMean (returnsOf filled)) else none
  let avgWin := if wins ≠ [] then some (ratMean (returnsOf wins)) else none
  let avgLoss := if losses ≠ [] then some (ratMean (returnsOf losses)) else none
  let sumWins : ℚ := if wins ≠ [] then (returnsOf wins).sum else 0
  let sumLosses : ℚ := if losses ≠ [] then (returnsOf losses).sum else 0
  let profitFactor : Option ℚ :=
    if sumLosses < 0 then
      (if 0 < |sumLosses| then some (sumWins / |sumLosses|) else none)
    else none
  let filledWithDays := filled.filter (fun r => r.daysInTrade.isSome)
  let avgDays :=
    if filledWithDays ≠ [] then
      some (ratMean (filledWithDays.filterMap (fun r => r.daysInTrade)))
    else none
  { asOfDate := asOf, ticker := ticker, side := side, horizonDays := horizon,
    signals := signalsCount, fills := fills, winRate := winRate,
    avgReturn := avgReturn, avgWin := avgWin, avgLoss := avgLoss,
    profitFactor := profitFactor, avgDaysInTrade := avgDays }

/-- Model of `_compute_metrics_for_groups`: enumerate the combos, skip empty subsets,
emit one `MetricRow` per non-empty subset. -/
def computeMetricsForGroups (frame : List TradeRow) (horizon : Option ℤ)
    (asOf : ℤ) : List MetricRow :=
  (combosOf frame).filterMap (fun c =>
    let subset := filterCombo frame c.1 c.2
    if subset = [] then none else some (metricsRow subset c.1 c.2 horizon asOf))

/-! ## Trading calendar — `sisacao8/calendar.py`

Dates are integer day ordinals with day `0` a Monday, so `d % 7` is Python's
`date.weekday()` and weekends are `d % 7 ∈ {5, 6}`.  The holiday set is
already normalized (`normalize_holidays`' silent dropping of malformed
entries is upstream of the claims verified here). -/

/-- Model of `is_trading_day`: a weekday that is not a holiday. -/
def isTradingDay (holidays : Finset ℤ) (d : ℤ) : Bool :=
  decide (d % 7 < 5) && decide (d ∉ holidays)

/-- Some strictly later day is a trading day (the reason the source's
unbounded `while True` loop in `next_trading_day` terminates): any large
enough multiple of 7 is a Monday past every holiday. -/
theorem existsNextTradingDay (holidays : Finset ℤ) (d : ℤ) :
    ∃ n : ℕ, isTradingDay holidays (d + 1 + (n : ℤ)) = true := by
  classical
  set K : ℕ := max d.toNat (holidays.sup Int.toNat) with hK
  have hdK : d ≤ (K : ℤ) :=
    le_trans (Int.self_le_toNat d) (by exact_mod_cast le_max_left _ _)
  have hKnn : (0 : ℤ) ≤ (K : ℤ) := Int.natCast_nonneg K
  have hm : d + 1 ≤ 7 * ((K : ℤ) + 1) := by linarith
  refine ⟨(7 * ((K : ℤ) + 1) - (d + 1)).toNat, ?_⟩
  have hcast : d + 1 + ((7 * ((K : ℤ) + 1) - (d + 1)).toNat : ℤ)
      = 7 * ((K : ℤ) + 1) := by
    rw [Int.toNat_of_nonneg (by linarith)]; ring
  rw [hcast]
  have hmod : (7 * ((K : ℤ) + 1)) % 7 = 0 := Int.mul_emod_right 7 _
  have hout : 7 * ((K : ℤ) + 1) ∉ holidays := by
    intro hmem
    have hx : (7 * ((K : ℤ) + 1)).toNat ≤ holidays.sup Int.toNat :=
      Finset.le_sup hmem
    have hxK : ((7 * ((K : ℤ) + 1)).toNat : ℤ) ≤ (K : ℤ) := by
      calc ((7 * ((K : ℤ) + 1)).toNat : ℤ)
          ≤ ((holidays.sup Int.toNat : ℕ) : ℤ) := by exact_mod_cast hx
        _ ≤ (K : ℤ) := by exact_mod_cast le_max_right _ _
    have hself : 7 * ((K : ℤ) + 1) ≤ ((7 * ((K : ℤ) + 1)).toNat : ℤ) :=
      Int.self_le_toNat _
    linarith
  simp [isTradingDay, hmod, hout]

/-- Some strictly earlier day is a trading day (termination reason for
`previous_trading_day`). -/
theorem existsPrevTradingDay (holidays : Finset ℤ) (d : ℤ) :
    ∃ n : ℕ, isTradingDay holidays (d - 1 - (n : ℤ)) = true := by
  classical
  set K : ℕ := max (1 - d).toNat (holidays.sup (fun x => (-x).toNat)) with hK
  have hdK : 1 - d ≤ (K : ℤ) :=
    le_trans (Int.self_le_toNat _) (by exact_mod_cast le_max_left _ _)
  have hKnn : (0 : ℤ) ≤ (K : ℤ) := Int.natCast_nonneg K
  have hm : -(7 * ((K : ℤ) + 1)) ≤ d - 1 := by linarith
  refine ⟨(d - 1 - (-(7 * ((K : ℤ) + 1)))).toNat, ?_⟩
  have hcast : d - 1 - (((d - 1 - (-(7 * ((K : ℤ) + 1)))).toNat : ℤ))
      = -(7 * ((K : ℤ) + 1)) := by
    rw [Int.toNat_of_nonneg (by linarith)]; ring
  rw [hcast]
  have hmod : (-(7 * ((K : ℤ) + 1))) % 7 = 0 := by
    have : -(7 * ((K : ℤ) + 1)) = 7 * (-((K : ℤ) + 1)) := by ring
    rw [this]
    exact Int.mul_emod_right 7 _
  have hout : -(7 * ((K : ℤ) + 1)) ∉ holidays := by
    intro hmem
    have hx : (-(-(7 * ((K : ℤ) + 1)))).toNat
        ≤ holidays.sup (fun x => (-x).toNat) :=
      @Finset.le_sup ℕ ℤ _ _ holidays (fun x => (-x).toNat) _ hmem
    rw [neg_neg] at hx
    have hxK : ((7 * ((K : ℤ) + 1)).toNat : ℤ) ≤ (K : ℤ) := by
      calc ((7 * ((K : ℤ) + 1)).toNat : ℤ)
          ≤ ((holidays.sup (fun x => (-x).toNat) : ℕ) : ℤ) := by
            exact_mod_cast hx
        _ ≤ (K : ℤ) := by exact_mod_cast le_max_right _ _
    have hself : 7 * ((K : ℤ) + 1) ≤ ((7 * ((K : ℤ) + 1)).toNat : ℤ) :=
      Int.self_le_toNat _
    linarith
  simp [isTradingDay, hmod, hout]

/-- Model of `next_trading_day`: the source's `candidate += 1` loop returns the least
trading day strictly after `d`; the loop is totalized by `Nat.find` on
`existsNextTradingDay`. -/
def nextTradingDay (holidays : Finset ℤ) (d : ℤ) : ℤ :=
  d + 1 + (Nat.find (existsNextTradingDay holidays d) : ℤ)

/-- Model of `previous_trading_day`, totalized symmetrically. -/
def previousTradingDay (holidays : Finset ℤ) (d : ℤ) : ℤ :=
  d - 1 - (Nat.find (existsPrevTradingDay holidays d) : ℤ)

/-- Number of non-trading days skipped by `nextTradingDay` (termination
measure for the `add_trading_days` loop). -/
def gapNext (holidays : Finset ℤ) (d : ℤ) : ℕ :=
  Nat.find (existsNextTradingDay holidays d)

/-- Number of non-trading days skipped by `previousTradingDay`. -/
def gapPrev (holidays : Finset ℤ) (d : ℤ) : ℕ :=
  Nat.find (existsPrevTradingDay holidays d)

theorem gapNext_pos (holidays : Finset ℤ) (d : ℤ)
    (hnt : ¬ isTradingDay holidays (d + 1) = true) :
    0 < gapNext holidays d := by
  rw [gapNext, Nat.pos_iff_ne_zero]
  intro h0
  have := (Nat.find_eq_zero (existsNextTradingDay holidays d)).mp h0
  simp only [Nat.cast_zero, add_zero] at this
  exact hnt this

theorem gapNext_step (holidays : Finset ℤ) (d : ℤ)
    (hnt : ¬ isTradingDay holidays (d + 1) = true) :
    gapNext holidays d = gapNext holidays (d + 1) + 1 := by
  simp only [gapNext]
  rw [Nat.find_eq_iff]
  constructor
  · have h := Nat.find_spec (existsNextTradingDay holidays (d + 1))
    have harith : d + 1 + ((Nat.find (existsNextTradingDay holidays (d + 1))
        + 1 : ℕ) : ℤ)
        = d + 1 + 1 + ((Nat.find (existsNextTradingDay holidays (d + 1)) : ℕ) : ℤ) := by
      push_cast; ring
    rw [harith]
    exact h
  · intro m hm
    cases m with
    | zero => simpa using hnt
    | succ k =>
      have hk : k < Nat.find (existsNextTradingDay holidays (d + 1)) := by
        omega
      have hmin := Nat.find_min (existsNextTradingDay holidays (d + 1)) hk
      intro hc
      apply hmin
      have harith : d + 1 + 1 + (k : ℤ) = d + 1 + ((k + 1 : ℕ) : ℤ) := by
        push_cast; ring
      rw [harith]
      exact hc

theorem gapPrev_pos (holidays : Finset ℤ) (d : ℤ)
    (hnt : ¬ isTradingDay holidays (d - 1) = true) :
    0 < gapPrev holidays d := by
  rw [gapPrev, Nat.pos_iff_ne_zero]
  intro h0
  have := (Nat.find_eq_zero (existsPrevTradingDay holidays d)).mp h0
  simp only [Nat.cast_zero, sub_zero] at this
  exact hnt this

theorem gapPrev_step (holidays : Finset ℤ) (d : ℤ)
    (hnt : ¬ isTradingDay holidays (d - 1) = true) :
    gapPrev holidays d = gapPrev holidays (d - 1) + 1 := by
  simp only [gapPrev]
  rw [Nat.find_eq_iff]
  constructor
  · have h := Nat.find_spec (existsPrevTradingDay holidays (d - 1))
    have harith : d - 1 - ((Nat.find (existsPrevTradingDay holidays (d - 1))
        + 1 : ℕ) : ℤ)
        = d - 1 - 1 - ((Nat.find (existsPrevTradingDay holidays (d - 1)) : ℕ) : ℤ) := by
      push_cast; ring
    rw [harith]
    exact h
  · intro m hm
    cases m with
    | zero => simpa using hnt
    | succ k =>
      have hk : k < Nat.find (existsPrevTradingDay holidays (d - 1)) := by
        omega
      have hmin := Nat.find_min (existsPrevTradingDay holidays (d - 1)) hk
      intro hc
      apply hmin
      have harith : d - 1 - 1 - (k : ℤ) = d - 1 - ((k + 1 : ℕ) : ℤ) := by
        push_cast; ring
      rw [harith]
      exact hc

/-- The `while remaining > 0` loop of `add_trading_days` for `step = 1`:
advance one calendar day, decrement `remaining` on trading days. -/
def loopUp (holidays : Finset ℤ) (candidate : ℤ) (remaining : ℕ) : ℤ :=
  match remaining with
  | 0 => candidate
  | r + 1 =>
    if hday : isTradingDay holidays (candidate + 1) = true then
      loopUp holidays (candidate + 1) r
    else
      loopUp holidays (candidate + 1) (r + 1)
termination_by (remaining, gapNext holidays candidate)
decreasing_by
  · exact Prod.Lex.left _ _ (Nat.lt_succ_self r)
  · have h1 : gapNext holidays candidate = gapNext holidays (candidate + 1) + 1 :=
      gapNext_step holidays candidate hday
    exact Prod.Lex.right _ (by omega)

/-- The `while remaining > 0` loop of `add_trading_days` for `step = -1`. -/
def loopDown (holidays : Finset ℤ) (candidate : ℤ) (remaining : ℕ) : ℤ :=
  match remaining with
  | 0 => candidate
  | r + 1 =>
    if hday : isTradingDay holidays (candidate - 1) = true then
      loopDown holidays (candidate - 1) r
    else
      loopDown holidays (candidate - 1) (r + 1)
termination_by (remaining, gapPrev holidays candidate)
decreasing_by
  · exact Prod.Lex.left _ _ (Nat.lt_succ_self r)
  · have h1 : gapPrev holidays candidate = gapPrev holidays (candidate - 1) + 1 :=
      gapPrev_step holidays candidate hday
    exact Prod.Lex.right _ (by omega)

/-- Model of `add_trading_days`: the `delta == 0` early return, then the signed
walking loop with `remaining = abs(delta)`. -/
def addTradingDays (holidays : Finset ℤ) (d : ℤ) (delta : ℤ) : ℤ :=
  if delta = 0 then
    (if isTradingDay holidays d then d else nextTradingDay holidays d)
  else if 0 < delta then loopUp holidays d delta.toNat
  else loopDown holidays d (-delta).toNat

/-! ## Calendar lemmas and the C9 claim -/

theorem nextTradingDay_of_trading (holidays : Finset ℤ) (d : ℤ)
    (ht : isTradingDay holidays (d + 1) = true) :
    nextTradingDay holidays d = d + 1 := by
  have h0 : Nat.find (existsNextTradingDay holidays d) = 0 := by
    rw [Nat.find_eq_zero]
    simpa using ht
  simp [nextTradingDay, h0]

theorem nextTradingDay_of_not_trading (holidays : Finset ℤ) (d : ℤ)
    (hnt : ¬ isTradingDay holidays (d + 1) = true) :
    nextTradingDay holidays d = nextTradingDay holidays (d + 1) := by
  have hstep := gapNext_step holidays d hnt
  have h1 : Nat.find (existsNextTradingDay holidays d)
      = Nat.find (existsNextTradingDay holidays (d + 1)) + 1 := by
    simpa [gapNext] using hstep
  simp only [nextTradingDay]
  rw [h1]
  push_cast
  ring

theorem previousTradingDay_of_trading (holidays : Finset ℤ) (d : ℤ)
    (ht : isTradingDay holidays (d - 1) = true) :
    previousTradingDay holidays d = d - 1 := by
  have h0 : Nat.find (existsPrevTradingDay holidays d) = 0 := by
    rw [Nat.find_eq_zero]
    simpa using ht
  simp [previousTradingDay, h0]

theorem previousTradingDay_of_not_trading (holidays : Finset ℤ) (d : ℤ)
    (hnt : ¬ isTradingDay holidays (d - 1) = true) :
    previousTradingDay holidays d = previousTradingDay holidays (d - 1) := by
  have hstep := gapPrev_step holidays d hnt
  have h1 : Nat.find (existsPrevTradingDay holidays d)
      = Nat.find (existsPrevTradingDay holidays (d - 1)) + 1 := by
    simpa [gapPrev] using hstep
  simp only [previousTradingDay]
  rw [h1]
  push_cast
  ring

theorem loopUp_succ_eq (holidays : Finset ℤ) :
    ∀ g d r, gapNext holidays d ≤ g →
      loopUp holidays d (r + 1) = loopUp holidays (nextTradingDay holidays d) r := by
  intro g
  induction g with
  | zero =>
    intro d r hg
    have h0 : gapNext holidays d = 0 := Nat.le_zero.mp hg
    have ht : isTradingDay holidays (d + 1) = true := by
      have := (Nat.find_eq_zero (existsNextTradingDay holidays d)).mp h0
      simpa using this
    rw [nextTradingDay_of_trading holidays d ht]
    simp [loopUp, ht]
  | succ g IH =>
    intro d r hg
    by_cases ht : isTradingDay holidays (d + 1) = true
    · rw [nextTradingDay_of_trading holidays d ht]
      simp [loopUp, ht]
    · have hstep := gapNext_step holidays d ht
      have hg2 : gapNext holidays (d + 1) ≤ g := by omega
      rw [nextTradingDay_of_not_trading holidays d ht]
      have hunf : loopUp holidays d (r + 1) = loopUp holidays (d + 1) (r + 1) := by
        rw [loopUp]
        simp [ht]
      rw [hunf]
      exact IH (d + 1) r hg2

theorem loopDown_succ_eq (holidays : Finset ℤ) :
    ∀ g d r, gapPrev holidays d ≤ g →
      loopDown holidays d (r + 1)
        = loopDown holidays (previousTradingDay holidays d) r := by
  intro g
  induction g with
  | zero =>
    intro d r hg
    have h0 : gapPrev holidays d = 0 := Nat.le_zero.mp hg
    have ht : isTradingDay holidays (d - 1) = true := by
      have := (Nat.find_eq_zero (existsPrevTradingDay holidays d)).mp h0
      simpa using this
    rw [previousTradingDay_of_trading holidays d ht]
    simp [loopDown, ht]
  | succ g IH =>
    intro d r hg
    by_cases ht : isTradingDay holidays (d - 1) = true
    · rw [previousTradingDay_of_trading holidays d ht]
      simp [loopDown, ht]
    · have hstep := gapPrev_step holidays d ht
      have hg2 : gapPrev holidays (d - 1) ≤ g := by omega
      rw [previousTradingDay_of_not_trading holidays d ht]
      have hunf : loopDown holidays d (r + 1) = loopDown holidays (d - 1) (r + 1) := by
        rw [loopDown]
        simp [ht]
      rw [hunf]
      exact IH (d - 1) r hg2

theorem loopUp_eq_iterate (holidays : Finset ℤ) (n : ℕ) :
    ∀ d, loopUp holidays d n = (nextTradingDay holidays)^[n] d := by
  induction n with
  | zero => intro d; rw [loopUp]; rfl
  | succ n IH =>
    intro d
    rw [loopUp_succ_eq holidays (gapNext holidays d) d n le_rfl]
    rw [IH (nextTradingDay holidays d)]
    rw [Function.iterate_succ_apply]

theorem loopDown_eq_iterate (holidays : Finset ℤ) (n : ℕ) :
    ∀ d, loopDown holidays d n = (previousTradingDay holidays)^[n] d := by
  induction n with
  | zero => intro d; rw [loopDown]; rfl
  | succ n IH =>
    intro d
    rw [loopDown_succ_eq holidays (gapPrev holidays d) d n le_rfl]
    rw [IH (previousTradingDay holidays d)]
    rw [Function.iterate_succ_apply]

/-- C9 (amended): `addTradingDays(date, delta, holidays)` equals the
`|delta|`-fold composition of `nextTradingDay` (for `delta > 0`) or
`previousTradingDay` (for `delta < 0`) applied to `date`; for `delta = 0` it
returns `date` itself when `date` is a trading day and `nextTradingDay(date)`
otherwise. -/
theorem addTradingDays_eq_iterate (holidays : Finset ℤ) (d delta : ℤ) :
    addTradingDays holidays d delta =
      if delta = 0 then
        (if isTradingDay holidays d then d else nextTradingDay holidays d)
      else if 0 < delta then (nextTradingDay holidays)^[delta.toNat] d
      else (previousTradingDay holidays)^[(-delta).toNat] d := by
  unfold addTradingDays
  by_cases h0 : delta = 0
  · simp [h0]
  · by_cases hpos : 0 < delta
    · simp [h0, hpos, loopUp_eq_iterate]
    · simp [h0, hpos, loopDown_eq_iterate]

/-- C9 counterexample: day `5` is a Saturday (day `0` is a Monday), and
`addTradingDays` with `delta = 0` maps it to the following Monday, day `7`,
not to the date itself as the claim states. -/
theorem addTradingDays_zero_not_identity :
    addTradingDays (∅ : Finset ℤ) 5 0 = 7 ∧
      addTradingDays (∅ : Finset ℤ) 5 0 ≠ 5 := by
  have hfind : Nat.find (existsNextTradingDay (∅ : Finset ℤ) 5) = 1 := by
    rw [Nat.find_eq_iff]
    refine ⟨by decide, ?_⟩
    intro m hm
    interval_cases m
    decide
  have hnext : nextTradingDay (∅ : Finset ℤ) 5 = 7 := by
    rw [nextTradingDay, hfind]
    norm_num
  have h5 : isTradingDay (∅ : Finset ℤ) 5 = false := by decide
  have hval : addTradingDays (∅ : Finset ℤ) 5 0 = 7 := by
    unfold addTradingDays
    rw [if_pos rfl, h5]
    simpa using hnext
  exact ⟨hval, by rw [hval]; decide⟩

/-! ## Simulator lemmas and the C1, C2, C6 claims -/

/-- The exhaustive outcomes of `_check_exit`. -/
theorem checkExit_cases (side : String) (bar : DailyBar) (target stop : ℚ) :
    checkExit side bar target stop = (none, none) ∨
    checkExit side bar target stop = (some "STOP", some stop) ∨
    checkExit side bar target stop = (some "TARGET", some target) := by
  unfold checkExit
  split_ifs <;> simp

/-- Loop invariant of `_simulate_signal`'s bar walk: a `TARGET` (`STOP`)
reason always travels with `exitPrice = target` (`stop`) and a filled entry,
and the reason stays within the five-value vocabulary. -/
theorem simLoop_spec (signal : SignalPayload) :
    ∀ (days : List DailyBar) (st : SimState),
    (st.exitReason = "TARGET" →
      st.exitPrice = some signal.target ∧ st.entryHit = true) →
    (st.exitReason = "STOP" →
      st.exitPrice = some signal.stop ∧ st.entryHit = true) →
    st.exitReason ∈ (["TARGET", "STOP", "EXPIRE", "NO_FILL", "NO_DATA"] : List String) →
    (((simLoop signal days st).exitReason = "TARGET" →
        (simLoop signal days st).exitPrice = some signal.target ∧
        (simLoop signal days st).entryHit = true) ∧
      ((simLoop signal days st).exitReason = "STOP" →
        (simLoop signal days st).exitPrice = some signal.stop ∧
        (simLoop signal days st).entryHit = true) ∧
      (simLoop signal days st).exitReason
        ∈ (["TARGET", "STOP", "EXPIRE", "NO_FILL", "NO_DATA"] : List String)) := by
  intro days
  induction days with
  | nil =>
    intro st h1 h2 h3
    rw [simLoop]
    exact ⟨h1, h2, h3⟩
  | cons bar rest IH =>
    intro st h1 h2 h3
    rw [simLoop]
    by_cases hEH : st.entryHit = false
    · by_cases htc : entryTouched signal.side bar signal.entry = true
      · simp only [hEH, htc, reduceIte, reduceCtorEq]
        rcases checkExit_cases signal.side bar signal.target signal.stop with
          hce | hce | hce <;> rw [hce]
        · refine IH _ ?_ ?_ (by simpa using h3)
          · intro hr
            exact ⟨(h1 (by simpa using hr)).1, rfl⟩
          · intro hr
            exact ⟨(h2 (by simpa using hr)).1, rfl⟩
        · refine ⟨?_, ?_, ?_⟩ <;> simp
        · refine ⟨?_, ?_, ?_⟩ <;> simp
      · simp only [hEH, htc, reduceIte, reduceCtorEq, if_false]
        refine IH _ ?_ ?_ (by simpa using h3)
        · intro hr
          exact absurd (h1 (by simpa using hr)).2 (by simp [hEH])
        · intro hr
          exact absurd (h2 (by simpa using hr)).2 (by simp [hEH])
    · have hEH' : st.entryHit = true := by
        cases h : st.entryHit
        · exact absurd h hEH
        · rfl
      simp only [hEH', reduceIte, reduceCtorEq]
      rcases checkExit_cases signal.side bar signal.target signal.stop with
        hce | hce | hce <;> rw [hce]
      · refine IH _ ?_ ?_ (by simpa using h3)
        · intro hr
          exact ⟨(h1 (by simpa using hr)).1, rfl⟩
        · intro hr
          exact ⟨(h2 (by simpa using hr)).1, rfl⟩
      · refine ⟨?_, ?_, ?_⟩ <;> simp
      · refine ⟨?_, ?_, ?_⟩ <;> simp

/-- C1: on any post-fill bar where both the stop condition and the target
condition hold simultaneously, `_check_exit` resolves to STOP with
`exitPrice = stop` and never TARGET — for BUY (`low ≤ stop` and
`high ≥ target`) and for SELL (`high ≥ stop` and `low ≤ target`) alike. -/
theorem checkExit_simultaneous_stop (bar : DailyBar) (target stop : ℚ) :
    (bar.low ≤ stop → target ≤ bar.high →
      checkExit "BUY" bar target stop = (some "STOP", some stop)) ∧
    (stop ≤ bar.high → bar.low ≤ target →
      checkExit "SELL" bar target stop = (some "STOP", some stop)) := by
  constructor
  · intro hs ht
    have h1 : hitStop "BUY" bar stop = true := by simp [hitStop, hs]
    have h2 : hitTarget "BUY" bar target = true := by simp [hitTarget, ht]
    simp [checkExit, h1, h2]
  · intro hs ht
    have h1 : hitStop "SELL" bar stop = true := by simp [hitStop, hs]
    have h2 : hitTarget "SELL" bar target = true := by simp [hitTarget, ht]
    simp [checkExit, h1, h2]

/-- Witness for C1: a double-touch bar `H106 L94` with `target 105 /
stop 95` (BUY) and `target 95 / stop 105` (SELL). -/
theorem checkExit_simultaneous_stop_witness :
    checkExit "BUY" ⟨"TEST3", 0, 100, 106, 94, 99⟩ 105 95
        = (some "STOP", some 95) ∧
    checkExit "SELL" ⟨"TEST3", 0, 100, 106, 94, 99⟩ 95 105
        = (some "STOP", some 105) :=
  ⟨(checkExit_simultaneous_stop _ _ _).1 (by norm_num) (by norm_num),
   (checkExit_simultaneous_stop _ _ _).2 (by norm_num) (by norm_num)⟩

/-- C2: the simulator is total — every `(signal, candle-window)` pair yields a
trade whose `exitReason` is one of the five fixed values, and an empty window
yields `NO_DATA` with `entryHit = false` and `returnPct = 0`. -/
theorem simulateSignal_total (signal : SignalPayload) (candles : List DailyBar) :
    (simulateSignal signal candles).exitReason
        ∈ (["TARGET", "STOP", "EXPIRE", "NO_FILL", "NO_DATA"] : List String) ∧
    (candles = [] →
      (simulateSignal signal candles).exitReason = "NO_DATA" ∧
      (simulateSignal signal candles).entryHit = false ∧
      (simulateSignal signal candles).returnPct = some 0) := by
  have hspec := simLoop_spec signal (orderedDays signal candles) initSimState
    (by simp [initSimState]) (by simp [initSimState]) (by simp [initSimState])
  constructor
  · unfold simulateSignal
    dsimp only
    split_ifs with hdays hexp
    · simp
    · simp
    · exact hspec.2.2
  · intro hc
    subst hc
    have hdays : orderedDays signal ([] : List DailyBar) = [] := by
      simp [orderedDays, stableSort]
    refine ⟨?_, ?_, ?_⟩ <;>
      · unfold simulateSignal
        dsimp only
        rw [hdays]
        simp [simLoop, initSimState]

/-- Witness for C2 at the empty candle window. -/
theorem simulateSignal_total_witness :
    (simulateSignal exampleSignal []).exitReason
        ∈ (["TARGET", "STOP", "EXPIRE", "NO_FILL", "NO_DATA"] : List String) ∧
    ((simulateSignal exampleSignal []).exitReason = "NO_DATA" ∧
      (simulateSignal exampleSignal []).entryHit = false ∧
      (simulateSignal exampleSignal []).returnPct = some 0) :=
  ⟨(simulateSignal_total exampleSignal []).1,
   (simulateSignal_total exampleSignal []).2 rfl⟩

/-- C6: for a simulated BUY trade with `entry > 0`, `target > entry` and
`stop < entry`, a TARGET exit has `exitPrice = target` and strictly positive
`returnPct = (target − entry)/entry`, and a STOP exit has `exitPrice = stop`
and strictly negative `returnPct = (stop − entry)/entry`. -/
theorem simulateSignal_buy_return_sign (signal : SignalPayload)
    (candles : List DailyBar) (hside : signal.side = "BUY")
    (hentry : 0 < signal.entry) (htarget : signal.entry < signal.target)
    (hstop : signal.stop < signal.entry) :
    ((simulateSignal signal candles).exitReason = "TARGET" →
      (simulateSignal signal candles).exitPrice = some signal.target ∧
      (simulateSignal signal candles).returnPct
          = some ((signal.target - signal.entry) / signal.entry) ∧
      (0 : ℚ) < (signal.target - signal.entry) / signal.entry) ∧
    ((simulateSignal signal candles).exitReason = "STOP" →
      (simulateSignal signal candles).exitPrice = some signal.stop ∧
      (simulateSignal signal candles).returnPct
          = some ((signal.stop - signal.entry) / signal.entry) ∧
      (signal.stop - signal.entry) / signal.entry < 0) := by
  have hspec := simLoop_spec signal (orderedDays signal candles) initSimState
    (by simp [initSimState]) (by simp [initSimState]) (by simp [initSimState])
  obtain ⟨hT, hS, _⟩ := hspec
  have hret : ∀ p : ℚ, computeReturn signal.side signal.entry p
      = (p - signal.entry) / signal.entry := by
    intro p
    simp [computeReturn, hside, ne_of_gt hentry]
  by_cases hdays : orderedDays signal candles = []
  · have hfr : (simulateSignal signal candles).exitReason = "NO_DATA" := by
      unfold simulateSignal
      dsimp only
      rw [if_pos hdays]
    constructor <;>
      · intro hr
        rw [hfr] at hr
        exact absurd hr (by decide)
  · by_cases hexp :
      ((simLoop signal (orderedDays signal candles) initSimState).entryHit
        && (simLoop signal (orderedDays signal candles) initSimState).exitPrice.isNone)
        = true
    · have hfr : (simulateSignal signal candles).exitReason = "EXPIRE" := by
        unfold simulateSignal
        dsimp only
        rw [if_neg hdays, if_pos hexp]
      constructor <;>
        · intro hr
          rw [hfr] at hr
          exact absurd hr (by decide)
    · have hexp' :
        ((simLoop signal (orderedDays signal candles) initSimState).entryHit
          && (simLoop signal (orderedDays signal candles) initSimState).exitPrice.isNone)
          = false := by
        cases hx : ((simLoop signal (orderedDays signal candles) initSimState).entryHit
          && (simLoop signal (orderedDays signal candles) initSimState).exitPrice.isNone)
        · rfl
        · exact absurd hx hexp
      have hfr : (simulateSignal signal candles).exitReason
          = (simLoop signal (orderedDays signal candles) initSimState).exitReason := by
        unfold simulateSignal
        dsimp only
        rw [if_neg hdays]
        simp [hexp']
      have hfp : (simulateSignal signal candles).exitPrice
          = (simLoop signal (orderedDays signal candles) initSimState).exitPrice := by
        unfold simulateSignal
        dsimp only
        simp [hexp']
      have hfret : (simulateSignal signal candles).returnPct
          = (match (simLoop signal (orderedDays signal candles) initSimState).entryHit,
                (simLoop signal (orderedDays signal candles) initSimState).exitPrice with
             | true, some p => some (computeReturn signal.side signal.entry p)
             | false, _ => some 0
             | true, none => some 0) := by
        unfold simulateSignal
        dsimp only
        simp [hexp']
      constructor
      · intro hr
        rw [hfr] at hr
        obtain ⟨hp, hh⟩ := hT hr
        refine ⟨by rw [hfp]; exact hp, ?_, ?_⟩
        · rw [hfret, hh, hp]
          dsimp only
          rw [hret]
        · exact div_pos (by linarith) hentry
      · intro hr
        rw [hfr] at hr
        obtain ⟨hp, hh⟩ := hS hr
        refine ⟨by rw [hfp]; exact hp, ?_, ?_⟩
        · rw [hfret, hh, hp]
          dsimp only
          rw [hret]
        · exact div_neg_of_neg_of_pos (by linarith) hentry

/-- Witness for C6: the spec's worked example resolves to TARGET with a
positive return. -/
theorem simulateSignal_buy_return_sign_witness :
    (simulateSignal exampleSignal exampleCandles).exitReason = "TARGET" ∧
    (simulateSignal exampleSignal exampleCandles).exitPrice = some 105 ∧
    (simulateSignal exampleSignal exampleCandles).returnPct
        = some (((105 : ℚ) - 100) / 100) ∧
    (0 : ℚ) < ((105 : ℚ) - 100) / 100 := by
  have hr : (simulateSignal exampleSignal exampleCandles).exitReason = "TARGET" := by
    decide
  have h := (simulateSignal_buy_return_sign exampleSignal exampleCandles rfl
    (by norm_num [exampleSignal]) (by norm_num [exampleSignal])
    (by norm_num [exampleSignal])).1 hr
  exact ⟨hr, h.1, h.2.1, h.2.2⟩

/-! ## Generator lemmas and the C3, C4, C5, C7, C10 claims -/

/-- Invariants of the selection loop: starting strictly below the cap with
consistent bookkeeping, the output stays within the cap, keeps tickers
pairwise distinct, and numbers ranks `1..k` in selection order. -/
theorem selectLoop_spec (limit : ℕ) :
    ∀ (cands : List Candidate) (selected : List ConditionalSignal)
      (used : List String),
    (∀ s ∈ selected, s.ticker ∈ used) →
    (selected.map (fun s => s.ticker)).Nodup →
    selected.map (fun s => s.rank) = List.range' 1 selected.length →
    selected.length < limit →
    ((selectLoop limit cands selected used).length ≤ limit ∧
      ((selectLoop limit cands selected used).map (fun s => s.ticker)).Nodup ∧
      (selectLoop limit cands selected used).map (fun s => s.rank)
        = List.range' 1 (selectLoop limit cands selected used).length) := by
  intro cands
  induction cands with
  | nil =>
    intro selected used h1 h2 h3 h4
    rw [selectLoop]
    exact ⟨le_of_lt h4, h2, h3⟩
  | cons c rest IH =>
    intro selected used h1 h2 h3 h4
    rw [selectLoop]
    by_cases hmem : c.ticker ∈ used
    · rw [if_pos hmem]
      exact IH selected used h1 h2 h3 h4
    · rw [if_neg hmem]
      have hnotin : c.ticker ∉ selected.map (fun s => s.ticker) := by
        intro hin
        rcases List.mem_map.mp hin with ⟨s, hsmem, hst⟩
        exact hmem (hst ▸ h1 s hsmem)
      have hnodup1 : ((selected ++ [mkSignal c (selected.length + 1)]).map
          (fun s => s.ticker)).Nodup := by
        rw [List.map_append]
        refine List.Nodup.append h2 (by simp) ?_
        intro a ha hb
        simp only [List.map_cons, List.map_nil, List.mem_singleton] at hb
        have hb' : a = c.ticker := hb
        exact hnotin (hb' ▸ ha)
      have hranks1 : (selected ++ [mkSignal c (selected.length + 1)]).map
          (fun s => s.rank)
          = List.range' 1 (selected ++ [mkSignal c (selected.length + 1)]).length := by
        rw [List.map_append, h3, List.length_append]
        simp [List.range'_1_concat, Nat.add_comm, mkSignal]
      have hlen1 : (selected ++ [mkSignal c (selected.length + 1)]).length
          = selected.length + 1 := by
        simp
      by_cases hlim : limit ≤ (selected ++ [mkSignal c (selected.length + 1)]).length
      · rw [if_pos hlim]
        refine ⟨?_, hnodup1, hranks1⟩
        rw [hlen1]
        omega
      · rw [if_neg hlim]
        refine IH _ _ ?_ hnodup1 hranks1 ?_
        · intro s hs
          rcases List.mem_append.mp hs with h | h
          · exact List.mem_cons_of_mem _ (h1 s h)
          · have hse : s = mkSignal c (selected.length + 1) := by simpa using h
            rw [hse]
            exact List.mem_cons_self _ _
        · rw [hlen1] at hlim ⊢
          omega

/-- C3: every successful generator run returns at most
`min(maxSignals, 5)` signals, with pairwise-distinct tickers and ranks
`1..k` assigned in selection order. -/
theorem generateConditionalSignals_selection (lg : ℚ → ℚ) (cfg : GenConfig)
    (rows : List BarRow) (metrics : List MetricsInputRow)
    (sigs : List ConditionalSignal)
    (hok : generateConditionalSignals lg cfg rows metrics = .ok sigs) :
    sigs.length ≤ min cfg.topN.toNat 5 ∧
    (sigs.map (fun s => s.ticker)).Nodup ∧
    sigs.map (fun s => s.rank) = List.range' 1 sigs.length := by
  unfold generateConditionalSignals at hok
  dsimp only at hok
  by_cases h0 : min cfg.topN.toNat 5 = 0
  · rw [if_pos h0] at hok
    injection hok with h
    subst h
    simp
  · rw [if_neg h0] at hok
    split_ifs at hok <;>
      first
        | simp only [reduceCtorEq] at hok
        | (injection hok with h
           subst h
           simp
           done)
        | (injection hok with h
           subst h
           exact selectLoop_spec (min cfg.topN.toNat 5) _ [] []
             (by simp) (by simp) (by simp) (Nat.pos_of_ne_zero h0))

/-- Fixture: a generator configuration with integral rates (so that every
comparison the run performs is kernel-computable). -/
def exampleConfig : GenConfig :=
  { topN := 5, xPct := 0, targetPct := 1, stopPct := 1, allowSell := false,
    horizonDays := 10, rankingKey := "score_v1" }

/-- Fixture: a single already-normalized generator input row. -/
def exampleGenRows : List BarRow :=
  [{ ticker := "TEST3", close := some 100, openP := some 100,
     high := some 101, low := some 99, volumeFinanceiro := some 0,
     volume := some 0, qtdNegociada := some 0 }]

/-- Fixture: the signal list produced on `exampleGenRows` (extracted so the
witness below can name it in a closed statement). -/
def exampleGenResult : List ConditionalSignal :=
  match generateConditionalSignals (fun _ => 0) exampleConfig exampleGenRows []
  with
  | .ok l => l
  | .error _ => []

/-- Witness for C3 on the one-row fixture. -/
theorem generateConditionalSignals_selection_witness :
    exampleGenResult.length ≤ min (exampleConfig.topN.toNat) 5 ∧
    (exampleGenResult.map (fun s => s.ticker)).Nodup ∧
    exampleGenResult.map (fun s => s.rank)
      = List.range' 1 exampleGenResult.length :=
  generateConditionalSignals_selection (fun _ => 0) exampleConfig
    exampleGenRows [] exampleGenResult rfl

/-- C4: every candidate score computed by `_compute_candidate_score` lies in
the closed interval `[0, 1]`, for any bar row, side, `log10` realization and
metrics snapshot. -/
theorem computeCandidateScore_mem_unit (lg : ℚ → ℚ) (ticker side : String)
    (row : BarRow) (lookup : List ((String × String) × MetricStats)) :
    0 ≤ computeCandidateScore lg ticker side row lookup ∧
    computeCandidateScore lg ticker side row lookup ≤ 1 := by
  unfold computeCandidateScore
  dsimp only
  constructor
  · exact le_max_left 0 _
  · apply max_le
    · norm_num
    · exact min_le_left 1 _

/-- C5: the generator is a pure function of `(bars, config, metrics)` — two
runs on identical inputs produce identical ordered output. -/
theorem generateConditionalSignals_deterministic (lg : ℚ → ℚ)
    (cfg : GenConfig) (rows : List BarRow) (metrics : List MetricsInputRow) :
    generateConditionalSignals lg cfg rows metrics
      = generateConditionalSignals lg cfg rows metrics := rfl

/-- Fixture: an invalid configuration (`targetPct ≤ 0`) with a positive
requested signal count. -/
def exampleBadConfig : GenConfig :=
  { topN := 5, xPct := 0, targetPct := -1, stopPct := 1, allowSell := true,
    horizonDays := 10, rankingKey := "score_v1" }

/-- C7 (amended): provided the requested signal count is positive (so the
`top_n ≤ 0` early return does not fire), the generator fails on every
invalid configuration — `xPct < 0`, `targetPct ≤ 0`, `stopPct ≤ 0` or
`horizonDays ≤ 0` — and, for a valid configuration, returns the empty list
(not an error) whenever the bar set is empty after normalization. -/
theorem generateConditionalSignals_config_errors (lg : ℚ → ℚ)
    (cfg : GenConfig) (rows : List BarRow) (metrics : List MetricsInputRow)
    (htop : 1 ≤ cfg.topN) :
    ((cfg.xPct < 0 ∨ cfg.targetPct ≤ 0 ∨ cfg.stopPct ≤ 0 ∨
        cfg.horizonDays ≤ 0) →
      ∃ e, generateConditionalSignals lg cfg rows metrics = .error e) ∧
    (0 ≤ cfg.xPct → 0 < cfg.targetPct → 0 < cfg.stopPct →
      0 < cfg.horizonDays → normalizeRows rows = [] →
      generateConditionalSignals lg cfg rows metrics = .ok []) := by
  have hlim : ¬ (min cfg.topN.toNat 5 = 0) := by omega
  constructor
  · intro hbad
    unfold generateConditionalSignals
    dsimp only
    rw [if_neg hlim]
    by_cases h1 : cfg.xPct < 0
    · rw [if_pos h1]
      exact ⟨_, rfl⟩
    · rw [if_neg h1]
      by_cases h2 : cfg.targetPct ≤ 0 ∨ cfg.stopPct ≤ 0
      · rw [if_pos h2]
        exact ⟨_, rfl⟩
      · rw [if_neg h2]
        by_cases h3 : cfg.horizonDays ≤ 0
        · rw [if_pos h3]
          exact ⟨_, rfl⟩
        · exfalso
          rcases hbad with h | h | h | h
          exacts [h1 h, h2 (Or.inl h), h2 (Or.inr h), h3 h]
  · intro hx ht hs hh hn
    unfold generateConditionalSignals
    dsimp only
    rw [if_neg hlim, if_neg (not_lt.mpr hx),
      if_neg (by push_neg; exact ⟨ht, hs⟩), if_neg (not_le.mpr hh)]
    by_cases hr : rows = []
    · rw [if_pos hr]
    · rw [if_neg hr, hn]
      simp [buildCandidates, stableSort, selectLoop]

/-- C7 counterexample: with `top_n = 0` the generator returns `ok []` — it
does not raise — even though `targetPct ≤ 0` makes the configuration
invalid. -/
theorem generateConditionalSignals_c7_counterexample :
    generateConditionalSignals (fun _ => 0)
        { topN := 0, xPct := 0, targetPct := -1, stopPct := 1,
          allowSell := true, horizonDays := 10, rankingKey := "score_v1" }
        [] []
      = .ok [] ∧
    ({ topN := 0, xPct := 0, targetPct := -1, stopPct := 1,
        allowSell := true, horizonDays := 10,
        rankingKey := "score_v1" } : GenConfig).targetPct ≤ 0 := by
  constructor
  · rfl
  · norm_num

/-- Witness for C7: the invalid fixture configuration produces an error, and
the valid fixture configuration on an empty bar set produces `ok []`. -/
theorem generateConditionalSignals_config_errors_witness :
    (∃ e, generateConditionalSignals (fun _ => 0) exampleBadConfig [] []
        = .error e) ∧
    generateConditionalSignals (fun _ => 0) exampleConfig [] [] = .ok [] := by
  constructor
  · exact (generateConditionalSignals_config_errors (fun _ => 0)
      exampleBadConfig [] [] (by norm_num [exampleBadConfig])).1
      (Or.inr (Or.inl (by norm_num [exampleBadConfig])))
  · exact (generateConditionalSignals_config_errors (fun _ => 0)
      exampleConfig [] [] (by norm_num [exampleConfig])).2
      (by norm_num [exampleConfig]) (by norm_num [exampleConfig])
      (by norm_num [exampleConfig]) (by norm_num [exampleConfig]) rfl

/-- C10: a requested signal count `≤ 0` short-circuits the generator to the
empty list before any configuration validation, so an otherwise fatal
configuration does not raise. -/
theorem generateConditionalSignals_topN_nonpos (lg : ℚ → ℚ) (cfg : GenConfig)
    (rows : List BarRow) (metrics : List MetricsInputRow)
    (htop : cfg.topN ≤ 0) :
    generateConditionalSignals lg cfg rows metrics = .ok [] := by
  have hlim : min cfg.topN.toNat 5 = 0 := by omega
  unfold generateConditionalSignals
  dsimp only
  rw [if_pos hlim]

/-- Witness for C10: `top_n = 0` together with a configuration violating all
four validity conditions still returns `ok []`. -/
theorem generateConditionalSignals_topN_nonpos_witness :
    generateConditionalSignals (fun _ => 0)
        { topN := 0, xPct := -1, targetPct := -2, stopPct := -3,
          allowSell := true, horizonDays := -4, rankingKey := "score_v1" }
        exampleGenRows [] = .ok [] :=
  generateConditionalSignals_topN_nonpos (fun _ => 0) _ exampleGenRows []
    (by norm_num)

/-! ## Aggregator lemmas and the C8 claim -/

theorem sum_neg_of_all_neg : ∀ (l : List ℚ), l ≠ [] → (∀ x ∈ l, x < 0) →
    l.sum < 0 := by
  intro l
  induction l with
  | nil => intro h _; exact absurd rfl h
  | cons a t IH =>
    intro _ hneg
    rw [List.sum_cons]
    rcases eq_or_ne t [] with rfl | ht
    · simpa using hneg a (by simp)
    · have hs := IH ht (fun x hx => hneg x (List.mem_cons_of_mem _ hx))
      have ha := hneg a (List.mem_cons_self _ _)
      linarith

/-- Every return collected from the losing subset is strictly negative. -/
theorem mem_returnsOf_lossesOf_neg (subset : List TradeRow) :
    ∀ x ∈ returnsOf (lossesOf subset), x < 0 := by
  intro x hx
  rcases List.mem_filterMap.mp hx with ⟨r, hr, hrp⟩
  have hloss : isLoss r = true := by
    unfold lossesOf at hr
    exact (List.mem_filter.mp hr).2
  unfold isLoss at hloss
  rw [hrp] at hloss
  exact of_decide_eq_true hloss

/-- A non-empty losing subset contributes at least one (present) return. -/
theorem returnsOf_lossesOf_ne_nil (subset : List TradeRow)
    (h : lossesOf subset ≠ []) : returnsOf (lossesOf subset) ≠ [] := by
  rcases hl : lossesOf subset with _ | ⟨r, rest⟩
  · exact absurd hl h
  · have hrmem : r ∈ lossesOf subset := by
      rw [hl]
      exact List.mem_cons_self _ _
    have hloss : isLoss r = true := by
      unfold lossesOf at hrmem
      exact (List.mem_filter.mp hrmem).2
    unfold isLoss at hloss
    rcases hv : r.returnPct with _ | v
    · rw [hv] at hloss
      simp at hloss
    · intro hnil
      have hvmem : v ∈ returnsOf (r :: rest) :=
        List.mem_filterMap.mpr ⟨r, List.mem_cons_self _ _, hv⟩
      rw [hnil] at hvmem
      exact absurd hvmem (List.not_mem_nil v)

/-- The profit-factor field of one aggregated row: the quotient
`sum(wins) / |sum(losses)|` exactly when there is at least one losing filled
trade, `none` otherwise. -/
theorem metricsRow_profitFactor (subset : List TradeRow)
    (t s : Option String) (horizon : Option ℤ) (asOf : ℤ) :
    (metricsRow subset t s horizon asOf).profitFactor
      = if lossesOf subset = [] then none
        else some ((returnsOf (winsOf subset)).sum
            / |(returnsOf (lossesOf subset)).sum|) := by
  unfold metricsRow
  dsimp only
  by_cases hl : lossesOf subset = []
  · have hA0 : (if lossesOf subset ≠ [] then (returnsOf (lossesOf subset)).sum
        else 0) = (0 : ℚ) := if_neg (by simp [hl])
    rw [hA0, if_neg (lt_irrefl (0 : ℚ)), if_pos hl]
  · have hneg : (returnsOf (lossesOf subset)).sum < 0 :=
      sum_neg_of_all_neg _ (returnsOf_lossesOf_ne_nil subset hl)
        (mem_returnsOf_lossesOf_neg subset)
    have habs : (0 : ℚ) < |(returnsOf (lossesOf subset)).sum| :=
      abs_pos.mpr (ne_of_lt hneg)
    have hA : (if lossesOf subset ≠ [] then (returnsOf (lossesOf subset)).sum
        else 0) = (returnsOf (lossesOf subset)).sum := if_pos hl
    rw [hA, if_pos hneg, if_pos habs, if_neg hl]
    by_cases hw : winsOf subset = []
    · rw [if_neg (by simp [hw]), hw]
      simp [returnsOf]
    · rw [if_pos hw]

/-- C8: every metric row emitted by `_compute_metrics_for_groups` carries
`profitFactor = sum(winning returns) / |sum(losing returns)|` when its combo
subset contains at least one losing filled trade, and `profitFactor = null`
when it contains none — never an infinity or a division error. -/
theorem computeMetricsForGroups_profitFactor (frame : List TradeRow)
    (horizon : Option ℤ) (asOf : ℤ) (m : MetricRow)
    (hm : m ∈ computeMetricsForGroups frame horizon asOf) :
    ∃ t s, m = metricsRow (filterCombo frame t s) t s horizon asOf ∧
      (lossesOf (filterCombo frame t s) ≠ [] →
        m.profitFactor
          = some ((returnsOf (winsOf (filterCombo frame t s))).sum
              / |(returnsOf (lossesOf (filterCombo frame t s))).sum|)) ∧
      (lossesOf (filterCombo frame t s) = [] → m.profitFactor = none) := by
  unfold computeMetricsForGroups at hm
  rcases List.mem_filterMap.mp hm with ⟨c, _, hval⟩
  dsimp only at hval
  by_cases hsub : filterCombo frame c.1 c.2 = []
  · rw [if_pos hsub] at hval
    exact absurd hval (by simp)
  · rw [if_neg hsub] at hval
    injection hval with h
    refine ⟨c.1, c.2, h.symm, ?_, ?_⟩
    · intro hloss
      rw [← h, metricsRow_profitFactor, if_neg hloss]
    · intro hloss
      rw [← h, metricsRow_profitFactor, if_pos hloss]

/-- Fixture: two filled trades, one winner (`AAA BUY +5`) and one loser
(`BBB SELL −2`). -/
def exampleTrades : List TradeRow :=
  [{ ticker := "AAA", side := "BUY", entryHit := true, returnPct := some 5,
     daysInTrade := some 2 },
   { ticker := "BBB", side := "SELL", entryHit := true,
     returnPct := some (-2), daysInTrade := some 3 }]

/-- Fixture: the global (`ticker = side = null`) aggregated row over
`exampleTrades`. -/
def exampleMetricRow : MetricRow :=
  metricsRow (filterCombo exampleTrades none none) none none (some 10) 0

/-- Witness for C8 at the global combo of the two-trade fixture. -/
theorem computeMetricsForGroups_profitFactor_witness :
    ∃ t s, exampleMetricRow
        = metricsRow (filterCombo exampleTrades t s) t s (some 10) 0 ∧
      (lossesOf (filterCombo exampleTrades t s) ≠ [] →
        exampleMetricRow.profitFactor
          = some ((returnsOf (winsOf (filterCombo exampleTrades t s))).sum
              / |(returnsOf (lossesOf (filterCombo exampleTrades t s))).sum|)) ∧
      (lossesOf (filterCombo exampleTrades t s) = [] →
        exampleMetricRow.profitFactor = none) := by
  apply computeMetricsForGroups_profitFactor exampleTrades (some 10) 0
    exampleMetricRow
  unfold computeMetricsForGroups
  apply List.mem_filterMap.mpr
  refine ⟨(none, none), ?_, ?_⟩
  · unfold combosOf
    dsimp only
    simp
  · dsimp only
    rw [if_neg ?_]
    · rfl
    · simp [filterCombo, exampleTrades]

end Sisacao
